import Mathlib

/-!
Verification development for the IbPy-Get-Historical-SMA repository.

The repository computes, for a requested historical market-data window, the
start instant of the window and a coarse duration descriptor, respecting a
trading calendar (weekends, full-day holidays, early-close days), and then
reduces the delivered bars into a simple moving average.

This file shallowly embeds the core of `security/helper_functions.py` and the
holiday table of `exchange_info.py`:

* dates and datetimes are embedded as explicit year/month/day records plus a
  seconds-of-day field, at one-second granularity (the source works with
  Python `datetime.date` / `datetime.datetime`; sub-second components are not
  exercised by any property below);
* all datetimes handled by the window-resolution code are exchange-local wall
  clock values, exactly as in the source where every value on that path is
  localized to the single exchange timezone, so the embedding drops the
  (constant) timezone tag on that path; the end-instant normalization
  (`format_endDateTime`), where two timezones genuinely interact, is embedded
  separately with explicit UTC offsets;
* the unbounded `while` loops of the source are embedded as fuel-indexed
  recursions returning `Option`; a `none` result models non-termination of
  the source loop;
* `dateutil.relativedelta(dt1, dt2)` is embedded for the case `dt1 ≤ dt2`
  (the only case the source exercises: it is applied to the window start and
  the later window end), including its month-walking loop and the
  normalization of the seconds remainder into days/hours/minutes/seconds.
-/

/-! ## Proleptic Gregorian calendar primitives -/
/-- Gregorian leap-year rule (as used by Python's `datetime`). -/
def isLeap (y : Int) : Bool := y % 4 == 0 && (y % 100 != 0 || y % 400 == 0)

/-- Number of days in month `m` (1–12) of year `y`; 0 for out-of-range `m`. -/
def daysInMonth (y : Int) (m : Nat) : Nat :=
  match m with
  | 1 => 31 | 2 => if isLeap y then 29 else 28 | 3 => 31 | 4 => 30
  | 5 => 31 | 6 => 30 | 7 => 31 | 8 => 31 | 9 => 30 | 10 => 31
  | 11 => 30 | 12 => 31 | _ => 0

/-- Days strictly before month `m` within year `y` (0 for January). -/
def daysBeforeMonth (y : Int) (m : Nat) : Int :=
  match m with
  | 1 => 0 | 2 => 31 | 3 => 59 + (if isLeap y then 1 else 0)
  | 4 => 90 + (if isLeap y then 1 else 0)
  | 5 => 120 + (if isLeap y then 1 else 0)
  | 6 => 151 + (if isLeap y then 1 else 0)
  | 7 => 181 + (if isLeap y then 1 else 0)
  | 8 => 212 + (if isLeap y then 1 else 0)
  | 9 => 243 + (if isLeap y then 1 else 0)
  | 10 => 273 + (if isLeap y then 1 else 0)
  | 11 => 304 + (if isLeap y then 1 else 0)
  | 12 => 334 + (if isLeap y then 1 else 0)
  | _ => 0

/-- Days strictly before January 1 of year `y`, counting from year 1
(so `daysBeforeYear 1 = 0`, matching Python's ordinal minus one). -/
def daysBeforeYear (y : Int) : Int :=
  365 * (y - 1) + (y - 1) / 4 - (y - 1) / 100 + (y - 1) / 400

/-- A calendar date, mirroring Python `datetime.date`. -/
structure Date where
  year : Int
  month : Nat
  day : Nat
deriving DecidableEq, Repr

/-- A wall-clock datetime at one-second granularity: a date plus a
seconds-of-day value, mirroring Python `datetime.datetime`. -/
structure DateTime where
  date : Date
  sod : Nat
deriving DecidableEq, Repr

/-- Zero-based day number of a date (0 = January 1 of year 1), the analogue
of Python's `date.toordinal() - 1`. -/
def toOrdinal (d : Date) : Int :=
  daysBeforeYear d.year + daysBeforeMonth d.year d.month + ((d.day : Int) - 1)

/-- Total seconds of a datetime on the day-number scale. -/
def dtTotalSeconds (dt : DateTime) : Int :=
  86400 * toOrdinal dt.date + (dt.sod : Int)

/-- Python `date.weekday()`: Monday = 0 … Sunday = 6.  January 1 of year 1 is
a Monday in the proleptic Gregorian calendar. -/
def weekday (d : Date) : Int := toOrdinal d % 7

/-- The date is a meaningful Gregorian calendar date. -/
def ValidDate (d : Date) : Prop :=
  1 ≤ d.month ∧ d.month ≤ 12 ∧ 1 ≤ d.day ∧ d.day ≤ daysInMonth d.year d.month

instance (d : Date) : Decidable (ValidDate d) := by
  unfold ValidDate; infer_instance

/-- The datetime is a meaningful calendar date with a time of day below 24h. -/
def ValidDateTime (dt : DateTime) : Prop :=
  ValidDate dt.date ∧ dt.sod < 86400

instance (dt : DateTime) : Decidable (ValidDateTime dt) := by
  unfold ValidDateTime; infer_instance

/-- The calendar day before `d` (Python `d - timedelta(days=1)`). -/
def prevDay (d : Date) : Date :=
  if 1 < d.day then ⟨d.year, d.month, d.day - 1⟩
  else if 1 < d.month then ⟨d.year, d.month - 1, daysInMonth d.year (d.month - 1)⟩
  else ⟨d.year - 1, 12, 31⟩

/-- Subtract `k < 86400` seconds from a datetime, borrowing one calendar day
when the time of day underflows (Python `dt - timedelta(seconds=k)`; the
source only ever subtracts spans below one day this way). -/
def dtSubSeconds (dt : DateTime) (k : Nat) : DateTime :=
  if k ≤ dt.sod then ⟨dt.date, dt.sod - k⟩
  else ⟨prevDay dt.date, dt.sod + 86400 - k⟩

/-! ## Month arithmetic (used by `dateutil.relativedelta`) -/
/-- Zero-based month index of a date: year times 12 plus month minus one. -/
def monthIndex (d : Date) : Int := 12 * d.year + ((d.month : Int) - 1)

/-- Shift a datetime by `k` calendar months, clamping the day of month to the
target month's length — `dateutil.relativedelta.__radd__` restricted to a
pure months offset, which is the only shape the source constructs in its
month-walking loop. -/
def addMonths (dt : DateTime) (k : Int) : DateTime :=
  let t := monthIndex dt.date + k
  let y := t / 12
  let m := (t % 12).toNat + 1
  ⟨⟨y, m, min dt.date.day (daysInMonth y m)⟩, dt.sod⟩

/-- Ordinal of the first day of the month with month index `t`. -/
def ordFirstDay (t : Int) : Int :=
  daysBeforeYear (t / 12) + daysBeforeMonth (t / 12) ((t % 12).toNat + 1)

/-- Length of the month with month index `t`. -/
def monthLen (t : Int) : Nat := daysInMonth (t / 12) ((t % 12).toNat + 1)

/-! ## `dateutil.relativedelta(dt1, dt2)` for `dt1 ≤ dt2`
`relativedelta(dt1, dt2)` first sets `months` to the raw year-and-month
difference, then repeatedly moves `months` toward zero while `dt2 + months`
(with day-of-month clamping) still lies strictly beyond `dt1`; the leftover
`dt1 - (dt2 + months)` is stored as a seconds total and normalized into
days/hours/minutes/seconds.  The source applies it as
`relativedelta(info_span_start_dt, endDateTime)` with the start at or before
the end, so only the `dt1 ≤ dt2` direction (negative components) is embedded;
`calculate_durationStr` then takes absolute values of every component. -/
/-- The month-adjustment loop of `relativedelta.__init__`, with explicit
fuel (the source loop provably terminates; the fuel chosen in `rdMonths`
always suffices, see `rdLoopGo_spec`). -/
def rdLoopGo (dt1 dt2 : DateTime) : Nat → Int → Int
  | 0, m => m
  | f + 1, m =>
    if dtTotalSeconds (addMonths dt2 m) < dtTotalSeconds dt1 then
      rdLoopGo dt1 dt2 f (m + 1)
    else m

/-- Whole-month part of `relativedelta(dt1, dt2)` (a nonpositive count for
`dt1 ≤ dt2`). -/
def rdMonths (dt1 dt2 : DateTime) : Int :=
  let m0 := monthIndex dt1.date - monthIndex dt2.date
  rdLoopGo dt1 dt2 ((0 - m0).toNat + 1) m0

/-- Absolute values of the six `relativedelta` components, exactly as
`calculate_durationStr` reads them after its `abs(...)` calls: the month part
is split by `_set_months` into years = |months| / 12 and months = |months| % 12,
and the leftover seconds are normalized by `_fix` into
days/hours/minutes/seconds. -/
structure RDAbs where
  years : Nat
  months : Nat
  days : Nat
  hours : Nat
  minutes : Nat
  seconds : Nat
deriving DecidableEq, Repr

/-- `relativedelta(dt1, dt2)` for `dt1 ≤ dt2`, with every component already
taken in absolute value (the composition of `dateutil`'s sign-carrying
normalization with the `abs` calls in `calculate_durationStr`). -/
def rdAbs (dt1 dt2 : DateTime) : RDAbs :=
  let m := rdMonths dt1 dt2
  let am := m.natAbs
  let delta := (dtTotalSeconds (addMonths dt2 m) - dtTotalSeconds dt1).natAbs
  ⟨am / 12, am % 12, delta / 86400, delta % 86400 / 3600, delta % 3600 / 60, delta % 60⟩

/-! ## Duration descriptor (`calculate_durationStr`, step 2) -/
/-- Units of an IB duration descriptor. -/
inductive DUnit
  | S | D | W | M | Y
deriving DecidableEq, Repr

/-- Wire form of a duration descriptor, e.g. `"7 M"` or `"30 S"`. -/
def renderDuration : Nat × DUnit → String
  | (n, DUnit.S) => s!"{n} S"
  | (n, DUnit.D) => s!"{n} D"
  | (n, DUnit.W) => s!"{n} W"
  | (n, DUnit.M) => s!"{n} M"
  | (n, DUnit.Y) => s!"{n} Y"

/-- The duration descriptor chosen by `calculate_durationStr` from the
absolute `relativedelta` components of the span from `dt1` (window start)
to `dt2` (window end) — the `if/elif` chain of
`security/helper_functions.py` lines 100–116, as a (magnitude, unit) pair. -/
def durationDescriptor_of_span (dt1 dt2 : DateTime) : Nat × DUnit :=
  let rd := rdAbs dt1 dt2
  if 0 < rd.years then (rd.years + 1, DUnit.Y)
  else if rd.months = 11 then (1, DUnit.Y)
  else if 0 < rd.months then (rd.months + 1, DUnit.M)
  else if rd.days = 27 then (1, DUnit.M)
  else if 6 ≤ rd.days then (rd.days / 7 + 1, DUnit.W)
  else if 0 < rd.days then (rd.days + 1, DUnit.D)
  else if rd.hours = 23 then (1, DUnit.D)
  else (rd.hours * 3600 + rd.minutes * 60 + rd.seconds, DUnit.S)

/-- The `durationStr` string produced by `calculate_durationStr` (lines
92–117 of `security/helper_functions.py`): the `relativedelta` of start and
end with absolute components, pushed through the `if/elif` chain. -/
def durationStr_of_span (dt1 dt2 : DateTime) : String :=
  let rd := rdAbs dt1 dt2
  if 0 < rd.years then s!"{rd.years + 1} Y"
  else if rd.months = 11 then "1 Y"
  else if 0 < rd.months then s!"{rd.months + 1} M"
  else if rd.days = 27 then "1 M"
  else if 6 ≤ rd.days then s!"{rd.days / 7 + 1} W"
  else if 0 < rd.days then s!"{rd.days + 1} D"
  else if rd.hours = 23 then "1 D"
  else s!"{rd.hours * 3600 + rd.minutes * 60 + rd.seconds} S"

/-- Modelled from the spec's duration-descriptor precedence table (section
4.3 step 2), word for word: the first-match-wins mapping from the broken-down
absolute calendar difference to a `(magnitude, unit)` descriptor.  Used only
to compare against the source-derived `durationDescriptor_of_span`. -/
def spec_durationTable (rd : RDAbs) : Nat × DUnit :=
  if 0 < rd.years then (rd.years + 1, DUnit.Y)
  else if rd.months = 11 then (1, DUnit.Y)
  else if 0 < rd.months then (rd.months + 1, DUnit.M)
  else if rd.days = 27 then (1, DUnit.M)
  else if 6 ≤ rd.days then (rd.days / 7 + 1, DUnit.W)
  else if 0 < rd.days then (rd.days + 1, DUnit.D)
  else if rd.hours = 23 then (1, DUnit.D)
  else (rd.hours * 3600 + rd.minutes * 60 + rd.seconds, DUnit.S)

/-- Shift the end instant of a window back by a duration descriptor, in
total seconds, using real calendar arithmetic for months and years (a year
is twelve calendar months, a month is one calendar month counted back from
the end instant, with day-of-month clamping) and fixed lengths for weeks,
days and seconds.  This is the measure in which claim C6's "the magnitude,
in its chosen unit, is at least the elapsed span" is formalized: a
descriptor covers the span exactly when stepping back by it from the end
lands at or before the start. -/
def backShiftSeconds (e : DateTime) : Nat × DUnit → Int
  | (n, DUnit.Y) => dtTotalSeconds (addMonths e (-(12 * (n : Int))))
  | (n, DUnit.M) => dtTotalSeconds (addMonths e (-(n : Int)))
  | (n, DUnit.W) => dtTotalSeconds e - 7 * 86400 * (n : Int)
  | (n, DUnit.D) => dtTotalSeconds e - 86400 * (n : Int)
  | (n, DUnit.S) => dtTotalSeconds e - (n : Int)

/-! ## Trading calendar (`helper_functions.py` lines 286–390, `exchange_info.py`) -/
/-- A holiday table entry: a date together with its kind string, exactly the
2-tuples of `exchange_info.trading_holidays` after date parsing
(`"full day"` or `"early close"`). -/
abbrev HolidayList := List (Date × String)

/-- The `for/else` holiday scan inside `_is_date_a_trading_day`: the first
entry with this date decides — kind `"full day"` means not a trading day,
any other kind means trading; no entry means trading. -/
def holiday_scan (mydate : Date) : HolidayList → Bool
  | [] => true
  | h :: t =>
    if mydate = h.1 then (if h.2 = "full day" then false else true)
    else holiday_scan mydate t

/-- `_is_date_a_trading_day`: false on Saturday (weekday 5) and Sunday
(weekday 6); otherwise the holiday scan decides (so early-close holidays and
holiday-free weekdays are trading days). -/
def _is_date_a_trading_day (mydate : Date) (trading_holidays : HolidayList) : Bool :=
  if weekday mydate = 5 ∨ weekday mydate = 6 then false
  else holiday_scan mydate trading_holidays

/-- `_is_date_a_trading_holiday`: first holiday entry matching the date
decides; with a kind filter (the source's
`return_true_for_one_holiday_type_only` string) the entry's kind must equal
the filter. -/
def _is_date_a_trading_holiday (mydate : Date) (trading_holidays : HolidayList)
    (return_true_for_one_holiday_type_only : Option String) : Bool :=
  match trading_holidays with
  | [] => false
  | h :: t =>
    if mydate = h.1 then
      match return_true_for_one_holiday_type_only with
      | none => true
      | some k => if h.2 = k then true else false
    else _is_date_a_trading_holiday mydate t return_true_for_one_holiday_type_only

/-- `_get_previous_trading_day`: step back one calendar day at a time until a
trading day is found.  The source loop is unbounded (`while True`); `fuel`
bounds the embedded recursion and `none` models a search that has not found a
trading day within `fuel` days. -/
def _get_previous_trading_day (fuel : Nat) (d : Date) (trading_holidays : HolidayList) :
    Option Date :=
  match fuel with
  | 0 => none
  | f + 1 =>
    let d1 := prevDay d
    if _is_date_a_trading_day d1 trading_holidays then some d1
    else _get_previous_trading_day f d1 trading_holidays

/-- `_x_trading_days_ago_starts_on_this_date`: walk backward from the end
date one calendar day at a time, counting trading days, until
`number_of_trading_days` of them have been seen; return that date at
midnight.  `fuel` bounds the source's unbounded `while` loop. -/
def _x_trading_days_ago_starts_on_this_date (fuel : Nat) (number_of_trading_days : Nat)
    (endDateTime : DateTime) (trading_holidays : HolidayList) : Option DateTime :=
  let rec walk : Nat → Nat → Date → Option Date
    | _, 0, running_day => some running_day
    | 0, _ + 1, _ => none
    | f + 1, need + 1, running_day =>
      let d1 := prevDay running_day
      if _is_date_a_trading_day d1 trading_holidays then walk f need d1
      else walk f (need + 1) d1
  (walk fuel number_of_trading_days endDateTime.date).map (fun d => ⟨d, 0⟩)

/-- The 2016 rows of `exchange_info.trading_holidays`, after
`convert_trading_holiday_datestrings_into_date_objects` has turned the
`M/D/YYYY` strings into dates. -/
def trading_holidays_2016 : HolidayList :=
  [ (⟨2016, 1, 1⟩, "full day"), (⟨2016, 1, 18⟩, "full day"),
    (⟨2016, 2, 15⟩, "full day"), (⟨2016, 3, 25⟩, "full day"),
    (⟨2016, 5, 30⟩, "full day"), (⟨2016, 7, 3⟩, "early close"),
    (⟨2016, 7, 4⟩, "full day"), (⟨2016, 9, 5⟩, "full day"),
    (⟨2016, 11, 25⟩, "early close"), (⟨2016, 12, 26⟩, "full day") ]

/-- `exchange_info.exchange_opening_time` (09:30) in seconds of day. -/
def exchange_opening_time : Nat := 9 * 3600 + 30 * 60

/-- `exchange_info.exchange_normal_close_time` (16:00) in seconds of day. -/
def exchange_normal_close_time : Nat := 16 * 3600

/-- `exchange_info.exchange_early_close_time` (13:00) in seconds of day. -/
def exchange_early_close_time : Nat := 13 * 3600

/-! ## Bar-size parsing (`_parse_barSizeSetting`, lines 181–200) -/
/-- The unit alternation of the source regex
`(\d{1,2}) (sec|secs|min|mins|hour|day)` — note: no plural `hours`. -/
def unit_alternatives : List String := ["sec", "secs", "min", "mins", "hour", "day"]

/-- Decimal value of a digit string (Python `int`). -/
def digitsToNat (ds : List Char) : Nat :=
  ds.foldl (fun a c => 10 * a + (c.toNat - 48)) 0

/-- Strip leading and trailing whitespace (Python `str.strip()`). -/
def stripChars (cs : List Char) : List Char :=
  ((cs.dropWhile Char.isWhitespace).reverse.dropWhile Char.isWhitespace).reverse

/-- `_parse_barSizeSetting`: strip whitespace, match the full string against
`(\d{1,2}) (sec|secs|min|mins|hour|day)` (digits modelled as ASCII), convert
the digits, then normalize the unit: drop a trailing `s` when the value is 1,
append an `s` when the value exceeds 1.  `none` models the raised
`Exception("Invalid barSizeSetting: ...")`. -/
def _parse_barSizeSetting (barSizeSetting : String) : Option (Nat × String) :=
  let cs := stripChars barSizeSetting.toList
  let ds := cs.takeWhile Char.isDigit
  let rest := cs.dropWhile Char.isDigit
  if 1 ≤ ds.length ∧ ds.length ≤ 2 then
    match rest with
    | ' ' :: us =>
      if String.mk us ∈ unit_alternatives then
        let v := digitsToNat ds
        let u1 := if v = 1 ∧ us.getLast? = some 's' then us.dropLast else us
        let u2 := if 1 < v ∧ ¬ u1.getLast? = some 's' then u1 ++ ['s'] else u1
        some (v, String.mk u2)
      else none
    | _ => none
  else none

/-- The stripped input decomposes as one or two ASCII digits, a single
space, and a unit drawn from `units` — the meaning of full-matching
`^\d{1,2} (u1|u2|...)$`. -/
def matchesBarSizeGrammar (units : List String) (s : String) : Prop :=
  ∃ ds us, stripChars s.toList = ds ++ ' ' :: us ∧ ds ≠ [] ∧ ds.length ≤ 2 ∧
    (∀ c ∈ ds, c.isDigit) ∧ String.mk us ∈ units

/-- Modelled from the spec: the claimed bar-size grammar
`^\d{1,2} (sec|secs|min|mins|hour|hours|day)$` (with plural `hours`)
together with the claimed restriction of the magnitude to 1–99. -/
def spec_claimed_barSize_ok (s : String) : Prop :=
  matchesBarSizeGrammar ["sec", "secs", "min", "mins", "hour", "hours", "day"] s ∧
    1 ≤ digitsToNat ((stripChars s.toList).takeWhile Char.isDigit)

/-! ## Intraday window walk (`helper_functions.py` lines 222–284, 331–373) -/
/-- `_does_datetime_fall_during_trading_hours`: within open..close on a
trading day, where the close is the early close on early-close holidays. -/
def _does_datetime_fall_during_trading_hours (d : DateTime) (trading_holidays : HolidayList)
    (exchange_opening_time exchange_normal_close_time exchange_early_close_time : Nat) : Bool :=
  if ¬ _is_date_a_trading_day d.date trading_holidays then false
  else if _is_date_a_trading_holiday d.date trading_holidays (some "early close") then
    decide (exchange_opening_time ≤ d.sod ∧ d.sod ≤ exchange_early_close_time)
  else
    decide (exchange_opening_time ≤ d.sod ∧ d.sod ≤ exchange_normal_close_time)

/-- `_calculate_most_recent_trading_day_endtime`: on a trading day after the
close, that day's close; otherwise the close of the previous trading day. -/
def _calculate_most_recent_trading_day_endtime (fuel : Nat) (d : DateTime)
    (trading_holidays : HolidayList) (openT normalClose earlyClose : Nat) : Option DateTime :=
  let sameDay : Option DateTime :=
    if _is_date_a_trading_day d.date trading_holidays then
      if ¬ _does_datetime_fall_during_trading_hours d trading_holidays openT normalClose earlyClose then
        let close_time :=
          if _is_date_a_trading_holiday d.date trading_holidays (some "early close") then earlyClose
          else normalClose
        if close_time < d.sod then some ⟨d.date, close_time⟩ else none
      else none
    else none
  match sameDay with
  | some r => some r
  | none =>
    (_get_previous_trading_day fuel d.date trading_holidays).map fun p =>
      ⟨p, if _is_date_a_trading_holiday p trading_holidays (some "early close") then earlyClose
          else normalClose⟩

/-- `_subtract_x_trading_secs_from_datetime`: snap an off-hours end to the
most recent close, then walk backward consuming whole trading days' budgets
(shortened on early-close days) until the remainder fits in one day.  `fuel`
bounds both the day walk and each previous-trading-day search. -/
def _subtract_x_trading_secs_from_datetime (fuel : Nat) (d : DateTime) (x_trading_secs : Nat)
    (trading_holidays : HolidayList) (openT normalClose earlyClose : Nat) : Option DateTime :=
  let et? : Option DateTime :=
    if ¬ _does_datetime_fall_during_trading_hours d trading_holidays openT normalClose earlyClose then
      _calculate_most_recent_trading_day_endtime fuel d trading_holidays openT normalClose earlyClose
    else some d
  let rec go : Nat → Int → Date → Option DateTime
    | 0, _, _ => none
    | f + 1, running, day =>
      let close_time :=
        if _is_date_a_trading_holiday day trading_holidays (some "early close") then earlyClose
        else normalClose
      let total_sec_in_trading_day : Int := (close_time : Int) - (openT : Int)
      if running + total_sec_in_trading_day < (x_trading_secs : Int) then
        match _get_previous_trading_day fuel day trading_holidays with
        | none => none
        | some p => go f (running + total_sec_in_trading_day) p
      else some (dtSubSeconds ⟨day, close_time⟩ ((x_trading_secs : Int) - running).toNat)
  match et? with
  | none => none
  | some endtime =>
    let total : Int := dtTotalSeconds endtime - dtTotalSeconds ⟨endtime.date, openT⟩
    if (x_trading_secs : Int) > total then
      match _get_previous_trading_day fuel endtime.date trading_holidays with
      | none => none
      | some p0 => go fuel total p0
    else some (dtSubSeconds endtime x_trading_secs)

/-- `_x_trading_secs_mins_or_hrs_ago_starts_at_this_time`: convert the bar
count into trading seconds and subtract them.  A unit outside
`sec/secs/min/mins/hour` leaves the Python `seconds_coefficient` variable
unbound (`NameError`), modelled as `none` — in particular the normalized
plural `"hours"` crashes here. -/
def _x_trading_secs_mins_or_hrs_ago_starts_at_this_time (fuel length barSizeSetting_value : Nat)
    (barSizeSetting_type : String) (endDateTime : DateTime) (trading_holidays : HolidayList)
    (openT normalClose earlyClose : Nat) : Option DateTime :=
  let coef? : Option Nat :=
    if barSizeSetting_type = "sec" ∨ barSizeSetting_type = "secs" then some 1
    else if barSizeSetting_type = "min" ∨ barSizeSetting_type = "mins" then some 60
    else if barSizeSetting_type = "hour" then some 3600
    else none
  coef?.bind fun c =>
    _subtract_x_trading_secs_from_datetime fuel endDateTime (length * barSizeSetting_value * c)
      trading_holidays openT normalClose earlyClose

/-- `_calculate_start_datetime_of_historical_request`: parse the bar size and
dispatch to the trading-day walk (unit `day`) or the trading-seconds walk. -/
def _calculate_start_datetime_of_historical_request (fuel length : Nat) (barSizeSetting : String)
    (endDateTime : DateTime) (trading_holidays : HolidayList)
    (openT normalClose earlyClose : Nat) : Option DateTime :=
  match _parse_barSizeSetting barSizeSetting with
  | none => none
  | some (v, ty) =>
    if ty = "day" then
      _x_trading_days_ago_starts_on_this_date fuel length endDateTime trading_holidays
    else
      _x_trading_secs_mins_or_hrs_ago_starts_at_this_time fuel length v ty endDateTime
        trading_holidays openT normalClose earlyClose

/-- `calculate_durationStr`: compute the raw start, move it two seconds
earlier (the fixed adjustment of lines 85–89), and derive the duration
string from the `relativedelta` of the adjusted start and the end. -/
def calculate_durationStr (fuel length : Nat) (barSizeSetting : String) (endDateTime : DateTime)
    (trading_holidays : HolidayList) (openT normalClose earlyClose : Nat) :
    Option (DateTime × String) :=
  (_calculate_start_datetime_of_historical_request fuel length barSizeSetting endDateTime
      trading_holidays openT normalClose earlyClose).map fun s0 =>
    let info_span_start_dt := dtSubSeconds s0 2
    (info_span_start_dt, durationStr_of_span info_span_start_dt endDateTime)

/-! ## Bar aggregation (`calculate_historical_sma`, lines 134–158) -/
/-- A delivered bar as the aggregator sees it: the timestamp (a date or
datetime, represented by its ordinal/total-seconds value, which is all the
sort key uses) and the already-selected field value. -/
abbrev Bar := Int × ℚ

/-- Descending-timestamp order used by
`historical_values.sort(key=itemgetter(0), reverse=True)`. -/
def barGE (a b : Bar) : Prop := b.1 ≤ a.1

instance : DecidableRel barGE := fun a b => inferInstanceAs (Decidable (b.1 ≤ a.1))

instance : IsTotal Bar barGE := ⟨fun a b => (le_total b.1 a.1).imp id id⟩

instance : IsTrans Bar barGE := ⟨fun _ _ _ hab hbc => le_trans hbc hab⟩

/-- The data carried by the `IndexError` message the source raises when too
few bars were returned: the requested count, the window bounds (only ever
interpolated into the message text), and the bars actually available. -/
structure InsufficientDataError where
  length : Nat
  startDateTime : Int
  endDateTime : Int
  values : List Bar
deriving DecidableEq

/-- `calculate_historical_sma`.  `historical_values.sort(...)` sorts the
caller's list in place (stable, descending by timestamp), then the local
name is rebound to the first `length` entries; the first component of the
result is the caller's list as it is left after the call, the second the
returned mean or the raised `IndexError`. -/
def calculate_historical_sma (length : Nat) (historical_values : List Bar)
    (startDateTime endDateTime : Int) :
    List Bar × Except InsufficientDataError ℚ :=
  let sortedVals := historical_values.insertionSort barGE
  let hv := sortedVals.take length
  if hv.length < length then
    (sortedVals, Except.error ⟨length, startDateTime, endDateTime, hv⟩)
  else
    (sortedVals, Except.ok ((hv.map Prod.snd).sum / (hv.length : ℚ)))

/-! ## End-instant normalization (`format_endDateTime`, lines 7–54)
This is the one place where two timezones interact, so it is embedded with
an explicit instant model: a timezone is a fixed UTC offset in seconds (the
daylight-saving dimension of `pytz` is outside the embedding), an aware
instant is a UTC second count tagged with the zone it is displayed in, and a
naive datetime is a bare wall-clock second count. -/
/-- The two timezone objects the source distinguishes (by object equality):
`tzlocal.get_localzone()` and the configured exchange timezone. -/
inductive TzTag
  | localTz
  | exchangeTz
deriving DecidableEq, Repr

/-- A timezone-aware instant: absolute UTC seconds plus the attached zone. -/
structure AwareInstant where
  utc : Int
  tag : TzTag
deriving DecidableEq, Repr

/-- UTC offset (seconds east) of a zone, given the two offsets. -/
def tzOffset (localOffset exchangeOffset : Int) : TzTag → Int
  | TzTag.localTz => localOffset
  | TzTag.exchangeTz => exchangeOffset

/-- `tz.localize(naive)`: attach zone `tag` to a naive wall-clock value. -/
def tzLocalize (localOffset exchangeOffset : Int) (tag : TzTag) (wall : Int) : AwareInstant :=
  ⟨wall - tzOffset localOffset exchangeOffset tag, tag⟩

/-- `aware.astimezone(tz)`: same instant, displayed in another zone. -/
def astimezone (a : AwareInstant) (tag : TzTag) : AwareInstant := ⟨a.utc, tag⟩

/-- Wall-clock reading of an aware instant in its own zone. -/
def awareWall (localOffset exchangeOffset : Int) (a : AwareInstant) : Int :=
  a.utc + tzOffset localOffset exchangeOffset a.tag

/-- The `endDateTime` argument of `format_endDateTime`: the sentinel
`'now'`, a naive datetime, or an aware datetime tagged with one of the two
known zones. -/
inductive EndDateTimeArg
  | now
  | naive (wall : Int)
  | aware (wall : Int) (tag : TzTag)
deriving DecidableEq, Repr

/-- `format_endDateTime`, parametrized by the two zone offsets and by the
current machine-local wall clock (`datetime.now()`).  Returns the
exchange-tagged end instant and the naive machine-local wall value that is
formatted into the request string.  A naive input is localized directly to
the exchange timezone (line 41), despite the `assume local time` comment;
both aware branches compare an aware datetime against the naive
`datetime.now()`, which raises `TypeError` in Python. -/
def format_endDateTime (localOffset exchangeOffset nowLocalWall : Int)
    (endDateTime : EndDateTimeArg) : Except String (AwareInstant × Int) :=
  match endDateTime with
  | EndDateTimeArg.now =>
    let endNow := tzLocalize localOffset exchangeOffset TzTag.localTz nowLocalWall
    Except.ok (astimezone endNow TzTag.exchangeTz, awareWall localOffset exchangeOffset endNow)
  | EndDateTimeArg.naive wall =>
    if nowLocalWall < wall then Except.error "endDateTime is in the future"
    else
      let end_exchange := tzLocalize localOffset exchangeOffset TzTag.exchangeTz wall
      let end_local := astimezone end_exchange TzTag.localTz
      Except.ok (end_exchange, awareWall localOffset exchangeOffset end_local)
  | EndDateTimeArg.aware _ _ =>
    Except.error "TypeError: aware and naive datetimes are not comparable"

/-- Modelled from the spec: "an Instant with no attached zone is interpreted
as machine-local", then converted to the exchange timezone. -/
def spec_naive_end_interpretation (localOffset exchangeOffset wall : Int) : AwareInstant :=
  astimezone (tzLocalize localOffset exchangeOffset TzTag.localTz wall) TzTag.exchangeTz

/-- A small concrete batch of bars (timestamp, value) used to instantiate
the aggregator theorems: supplied in neither ascending nor descending
order. -/
def sampleBars : List Bar := [(1, 10), (3, 30), (2, 20)]

/-! ### Basic calendar lemmas -/
theorem daysBeforeYear_succ (y : Int) :
    daysBeforeYear (y + 1) = daysBeforeYear y + 365 + (if isLeap y then 1 else 0) := by
  unfold daysBeforeYear isLeap
  split <;> rename_i h <;>
    simp only [Bool.and_eq_true, Bool.or_eq_true, beq_iff_eq, bne_iff_ne, ne_eq,
      Bool.and_eq_false_iff, Bool.or_eq_false_iff, beq_eq_false_iff_ne,
      bne_eq_false_iff_eq] at h <;> omega

theorem daysBeforeMonth_succ (y : Int) (m : Nat) (h1 : 1 ≤ m) (h2 : m ≤ 11) :
    daysBeforeMonth y (m + 1) = daysBeforeMonth y m + daysInMonth y m := by
  interval_cases m <;> by_cases h : isLeap y <;>
    simp [daysBeforeMonth, daysInMonth, h]

theorem daysBeforeMonth_year_end (y : Int) :
    daysBeforeMonth y 12 + daysInMonth y 12 = 365 + (if isLeap y then 1 else 0) := by
  by_cases h : isLeap y <;> simp [daysBeforeMonth, daysInMonth, h]

theorem daysInMonth_pos (y : Int) (m : Nat) (h1 : 1 ≤ m) (h2 : m ≤ 12) :
    28 ≤ daysInMonth y m := by
  by_cases h : isLeap y <;> interval_cases m <;> simp [daysInMonth, h]

theorem toOrdinal_prevDay (d : Date) (h : ValidDate d) :
    toOrdinal (prevDay d) = toOrdinal d - 1 := by
  obtain ⟨h1, h2, h3, h4⟩ := h
  unfold prevDay
  split
  · unfold toOrdinal; simp only; omega
  · split
    · rename_i hd hm
      unfold toOrdinal
      simp only
      have hstep : daysBeforeMonth d.year (d.month - 1 + 1)
          = daysBeforeMonth d.year (d.month - 1) + daysInMonth d.year (d.month - 1) :=
        daysBeforeMonth_succ d.year (d.month - 1) (by omega) (by omega)
      have : d.month - 1 + 1 = d.month := by omega
      rw [this] at hstep
      omega
    · rename_i hd hm
      have hm1 : d.month = 1 := by omega
      have hd1 : d.day = 1 := by omega
      unfold toOrdinal
      simp only [hm1, hd1]
      have hy : daysBeforeYear (d.year - 1 + 1)
          = daysBeforeYear (d.year - 1) + 365 + (if isLeap (d.year - 1) then 1 else 0) :=
        daysBeforeYear_succ (d.year - 1)
      have : d.year - 1 + 1 = d.year := by omega
      rw [this] at hy
      have hend := daysBeforeMonth_year_end (d.year - 1)
      simp only [daysBeforeMonth, daysInMonth] at *
      split at hend <;> split at hy <;> simp_all <;> omega

theorem validDate_prevDay (d : Date) (h : ValidDate d) : ValidDate (prevDay d) := by
  obtain ⟨h1, h2, h3, h4⟩ := h
  unfold prevDay ValidDate
  split
  · simp only; omega
  · split
    · rename_i hd hm
      have := daysInMonth_pos d.year (d.month - 1) (by omega) (by omega)
      simp only; omega
    · simp only [daysInMonth]; omega

theorem monthLen_pos (t : Int) : 28 ≤ monthLen t := by
  unfold monthLen
  have h1 : 0 ≤ t % 12 := Int.emod_nonneg t (by norm_num)
  have h2 : t % 12 < 12 := Int.emod_lt_of_pos t (by norm_num)
  have h3 : 1 ≤ (t % 12).toNat + 1 := by omega
  have h4 : (t % 12).toNat + 1 ≤ 12 := by omega
  exact daysInMonth_pos (t / 12) ((t % 12).toNat + 1) h3 h4

theorem ordFirstDay_succ (t : Int) :
    ordFirstDay (t + 1) = ordFirstDay t + monthLen t := by
  unfold ordFirstDay monthLen
  have h1 : 0 ≤ t % 12 := Int.emod_nonneg t (by norm_num)
  have h2 : t % 12 < 12 := Int.emod_lt_of_pos t (by norm_num)
  by_cases hw : t % 12 = 11
  · have hq : (t + 1) / 12 = t / 12 + 1 := by omega
    have hr : (t + 1) % 12 = 0 := by omega
    have hy := daysBeforeYear_succ (t / 12)
    rw [hq, hr, hw]
    have h12 : ((11 : Int)).toNat + 1 = 12 := rfl
    rw [h12]
    by_cases hL : isLeap (t / 12) <;>
      norm_num [daysBeforeMonth, daysInMonth, hL] at hy ⊢ <;> omega
  · have hq : (t + 1) / 12 = t / 12 := by omega
    have hr : (t + 1) % 12 = t % 12 + 1 := by omega
    rw [hq, hr]
    have hs : ((t % 12 + 1).toNat + 1) = ((t % 12).toNat + 1) + 1 := by omega
    rw [hs]
    have := daysBeforeMonth_succ (t / 12) ((t % 12).toNat + 1) (by omega) (by omega)
    omega

theorem ordFirstDay_mono {t s : Int} (h : t ≤ s) : ordFirstDay t ≤ ordFirstDay s := by
  have key : ∀ n : Nat, ordFirstDay t ≤ ordFirstDay (t + n) := by
    intro n
    induction n with
    | zero => simp
    | succ k ih =>
      have hstep := ordFirstDay_succ (t + k)
      have hpos := monthLen_pos (t + k)
      have : (t + (k + 1 : Nat)) = (t + k) + 1 := by push_cast; ring
      rw [this, hstep]
      omega
  have hn : s = t + ((s - t).toNat : Int) := by omega
  rw [hn]
  exact key (s - t).toNat

theorem ordFirstDay_gap {t s : Int} (h : t < s) :
    ordFirstDay t + monthLen t ≤ ordFirstDay s := by
  have := ordFirstDay_succ t
  have := ordFirstDay_mono (show t + 1 ≤ s by omega)
  omega

theorem toOrdinal_addMonths_bounds (dt : DateTime) (k : Int) (hd : 1 ≤ dt.date.day) :
    ordFirstDay (monthIndex dt.date + k) ≤ toOrdinal (addMonths dt k).date ∧
    toOrdinal (addMonths dt k).date ≤
      ordFirstDay (monthIndex dt.date + k) + (monthLen (monthIndex dt.date + k) : Int) - 1 := by
  unfold addMonths toOrdinal ordFirstDay monthLen
  simp only
  have hpos := monthLen_pos (monthIndex dt.date + k)
  unfold monthLen at hpos
  omega

theorem monthIndex_facts (d : Date) (h : ValidDate d) :
    (monthIndex d) / 12 = d.year ∧ ((monthIndex d) % 12).toNat + 1 = d.month := by
  obtain ⟨h1, h2, _, _⟩ := h
  unfold monthIndex
  omega

theorem toOrdinal_own_month (d : Date) (h : ValidDate d) :
    ordFirstDay (monthIndex d) ≤ toOrdinal d ∧
    toOrdinal d ≤ ordFirstDay (monthIndex d) + (monthLen (monthIndex d) : Int) - 1 := by
  obtain ⟨hq, hr⟩ := monthIndex_facts d h
  obtain ⟨h1, h2, h3, h4⟩ := h
  unfold ordFirstDay monthLen toOrdinal
  rw [hq, hr]
  omega

theorem addMonths_zero (dt : DateTime) (h : ValidDate dt.date) : addMonths dt 0 = dt := by
  obtain ⟨hq, hr⟩ := monthIndex_facts dt.date h
  obtain ⟨h1, h2, h3, h4⟩ := h
  unfold addMonths
  simp only [Int.add_zero, hq, hr]
  have : min dt.date.day (daysInMonth dt.date.year dt.date.month) = dt.date.day := by omega
  rw [this]

theorem dtTotalSeconds_lt_of_ordinal_lt {a b : DateTime} (ha : a.sod < 86400)
    (h : toOrdinal a.date < toOrdinal b.date) : dtTotalSeconds a < dtTotalSeconds b := by
  unfold dtTotalSeconds
  omega

theorem ordinal_le_of_dtTotalSeconds_le {a b : DateTime} (hb : b.sod < 86400)
    (h : dtTotalSeconds a ≤ dtTotalSeconds b) : toOrdinal a.date ≤ toOrdinal b.date := by
  unfold dtTotalSeconds at h
  omega

theorem addMonths_strict_mono (dt : DateTime) (hd : 1 ≤ dt.date.day) {k j : Int}
    (h : k < j) : dtTotalSeconds (addMonths dt k) < dtTotalSeconds (addMonths dt j) := by
  have hk := toOrdinal_addMonths_bounds dt k hd
  have hj := toOrdinal_addMonths_bounds dt j hd
  have hgap := ordFirstDay_gap (show monthIndex dt.date + k < monthIndex dt.date + j by omega)
  have hsod : (addMonths dt k).sod = (addMonths dt j).sod := rfl
  unfold dtTotalSeconds
  rw [hsod]
  omega

theorem addMonths_mono (dt : DateTime) (hd : 1 ≤ dt.date.day) {k j : Int}
    (h : k ≤ j) : dtTotalSeconds (addMonths dt k) ≤ dtTotalSeconds (addMonths dt j) := by
  rcases lt_or_eq_of_le h with hlt | heq
  · exact le_of_lt (addMonths_strict_mono dt hd hlt)
  · rw [heq]

theorem monthIndex_mono_of_le {a b : Date} (hva : ValidDate a) (hvb : ValidDate b)
    (h : toOrdinal a ≤ toOrdinal b) : monthIndex a ≤ monthIndex b := by
  by_contra hc
  push_neg at hc
  have ha := toOrdinal_own_month a hva
  have hb := toOrdinal_own_month b hvb
  have hgap := ordFirstDay_gap hc
  omega

theorem rdLoopGo_spec (dt1 dt2 : DateTime)
    (hstop : ¬ dtTotalSeconds (addMonths dt2 0) < dtTotalSeconds dt1) :
    ∀ (f : Nat) (m : Int), m ≤ 0 → (0 - m).toNat + 1 ≤ f →
    ¬ dtTotalSeconds (addMonths dt2 (rdLoopGo dt1 dt2 f m)) < dtTotalSeconds dt1 ∧
    (rdLoopGo dt1 dt2 f m = m ∨
      dtTotalSeconds (addMonths dt2 (rdLoopGo dt1 dt2 f m - 1)) < dtTotalSeconds dt1) ∧
    m ≤ rdLoopGo dt1 dt2 f m ∧ rdLoopGo dt1 dt2 f m ≤ 0 := by
  intro f
  induction f with
  | zero => intro m _ hf; omega
  | succ f ih =>
    intro m hm hf
    unfold rdLoopGo
    split
    · rename_i hcond
      have hm0 : m ≠ 0 := by
        intro h; rw [h] at hcond; exact hstop hcond
      have hrec := ih (m + 1) (by omega) (by omega)
      refine ⟨hrec.1, ?_, by omega, hrec.2.2.2⟩
      rcases hrec.2.1 with heq | hlt
      · right; rw [heq]; simpa using hcond
      · right; exact hlt
    · rename_i hcond
      exact ⟨hcond, Or.inl rfl, le_refl m, hm⟩

/-- Postconditions of the `relativedelta` month loop: letting `M` be the
computed month offset, `dt2 + M` is at or after `dt1`, `dt2 + (M - 1)` is
strictly before `dt1`, and `M ≤ 0`. -/
theorem rdMonths_spec (dt1 dt2 : DateTime) (hv1 : ValidDateTime dt1)
    (hv2 : ValidDateTime dt2) (hle : dtTotalSeconds dt1 ≤ dtTotalSeconds dt2) :
    dtTotalSeconds dt1 ≤ dtTotalSeconds (addMonths dt2 (rdMonths dt1 dt2)) ∧
    dtTotalSeconds (addMonths dt2 (rdMonths dt1 dt2 - 1)) < dtTotalSeconds dt1 ∧
    rdMonths dt1 dt2 ≤ 0 := by
  obtain ⟨hd1, hs1⟩ := hv1
  obtain ⟨hd2, hs2⟩ := hv2
  have hstop : ¬ dtTotalSeconds (addMonths dt2 0) < dtTotalSeconds dt1 := by
    rw [addMonths_zero dt2 hd2]; omega
  have hord : toOrdinal dt1.date ≤ toOrdinal dt2.date :=
    ordinal_le_of_dtTotalSeconds_le hs2 hle
  have hidx : monthIndex dt1.date ≤ monthIndex dt2.date :=
    monthIndex_mono_of_le hd1 hd2 hord
  set m0 := monthIndex dt1.date - monthIndex dt2.date with hm0def
  have hm0 : m0 ≤ 0 := by omega
  have hspec := rdLoopGo_spec dt1 dt2 hstop ((0 - m0).toNat + 1) m0 hm0 (le_refl _)
  have hrm : rdMonths dt1 dt2 = rdLoopGo dt1 dt2 ((0 - m0).toNat + 1) m0 := by
    rw [hm0def]; rfl
  rw [hrm]
  refine ⟨by omega, ?_, hspec.2.2.2⟩
  rcases hspec.2.1 with heq | hlt
  · -- the loop never ran: the initial month offset already satisfies the
    -- postcondition because `dt2 + (m0 - 1)` lies in the month before
    -- `dt1`'s own month
    rw [heq]
    have hb := toOrdinal_addMonths_bounds dt2 (m0 - 1) (by obtain ⟨_, _, h3, _⟩ := hd2; omega)
    have hown := toOrdinal_own_month dt1.date hd1
    have hgap : ordFirstDay (monthIndex dt2.date + (m0 - 1)) +
        (monthLen (monthIndex dt2.date + (m0 - 1)) : Int)
        ≤ ordFirstDay (monthIndex dt1.date) := by
      have : monthIndex dt2.date + (m0 - 1) < monthIndex dt1.date := by omega
      have h1 := ordFirstDay_succ (monthIndex dt2.date + (m0 - 1))
      have h2 := ordFirstDay_mono (show monthIndex dt2.date + (m0 - 1) + 1 ≤ monthIndex dt1.date by omega)
      omega
    have : toOrdinal (addMonths dt2 (m0 - 1)).date < toOrdinal dt1.date := by omega
    have hsod : (addMonths dt2 (m0 - 1)).sod = dt2.sod := rfl
    exact dtTotalSeconds_lt_of_ordinal_lt (by rw [hsod]; exact hs2) this
  · exact hlt

theorem durationStr_eq_render (dt1 dt2 : DateTime) :
    durationStr_of_span dt1 dt2 = renderDuration (durationDescriptor_of_span dt1 dt2) := by
  simp only [durationStr_of_span, durationDescriptor_of_span]
  split_ifs <;> rfl

/-- C6: for every resolved request window (any valid start at or before a
valid end), the duration descriptor never under-reports the elapsed span in
its chosen unit: stepping back from the end instant by the descriptor's
magnitude — in calendar months for the month and year units (a year being
twelve calendar months), and in fixed-length weeks, days or seconds
otherwise — always lands at or before the window start, in every branch of
the precedence table. -/
theorem C6_duration_descriptor_covers_span (dt1 dt2 : DateTime) (hv1 : ValidDateTime dt1)
    (hv2 : ValidDateTime dt2) (hle : dtTotalSeconds dt1 ≤ dtTotalSeconds dt2) :
    backShiftSeconds dt2 (durationDescriptor_of_span dt1 dt2) ≤ dtTotalSeconds dt1 := by
  obtain ⟨hP1, hP2, hP3⟩ := rdMonths_spec dt1 dt2 hv1 hv2 hle
  have hd2day : 1 ≤ dt2.date.day := hv2.1.2.2.1
  simp only [durationDescriptor_of_span, rdAbs]
  set M := rdMonths dt1 dt2 with hMdef
  set am := M.natAbs with hamdef
  set S := dtTotalSeconds (addMonths dt2 M) - dtTotalSeconds dt1 with hSdef
  set ds := S.natAbs with hdsdef
  have hamM : (am : Int) = -M := by omega
  split_ifs with h1 h2 h3 h4 h5 h6 h7
  · -- years branch: years + 1 whole years reach past the month remainder
    simp only [backShiftSeconds]
    have hk : (-(12 * ((am / 12 + 1 : Nat) : Int))) ≤ M - 1 := by
      push_cast
      omega
    exact le_trans (addMonths_mono dt2 hd2day hk) (le_of_lt hP2)
  · -- months = 11 branch: one year is exactly one month beyond the remainder
    simp only [backShiftSeconds]
    have hk : (-(12 * ((1 : Nat) : Int))) = M - 1 := by push_cast; omega
    rw [hk]
    exact le_of_lt hP2
  · -- months > 0 branch
    simp only [backShiftSeconds]
    have hk : (-(((am % 12 + 1 : Nat)) : Int)) = M - 1 := by push_cast; omega
    rw [hk]
    exact le_of_lt hP2
  all_goals have hM0 : M = 0 := by omega
  all_goals rw [hM0, addMonths_zero dt2 hv2.1] at hP1 hSdef
  all_goals have hds : (ds : Int) = dtTotalSeconds dt2 - dtTotalSeconds dt1 := by omega
  · -- days = 27 branch: one calendar month spans at least 28 days
    simp only [backShiftSeconds]
    have hk : (-((1 : Nat) : Int)) = M - 1 := by push_cast; omega
    rw [hk]
    exact le_of_lt hP2
  · -- weeks branch
    simp only [backShiftSeconds]
    omega
  · -- days branch
    simp only [backShiftSeconds]
    omega
  · -- hours = 23 branch
    simp only [backShiftSeconds]
    omega
  · -- seconds branch: the descriptor equals the remainder exactly
    simp only [backShiftSeconds]
    omega

/-! ## Supporting lemmas for the claim theorems -/
theorem holiday_scan_eq_false_iff (d : Date) (hol : HolidayList)
    (hnodup : (hol.map Prod.fst).Nodup) :
    holiday_scan d hol = false ↔ (d, "full day") ∈ hol := by
  induction hol with
  | nil => simp [holiday_scan]
  | cons h t ih =>
    simp only [List.map_cons, List.nodup_cons] at hnodup
    obtain ⟨hnotin, hnd⟩ := hnodup
    unfold holiday_scan
    by_cases hd : d = h.1
    · subst hd
      by_cases hk : h.2 = "full day"
      · simp only [if_pos rfl, if_pos hk, List.mem_cons]
        constructor
        · intro _; left; rw [← hk]
        · intro _; rfl
      · simp only [if_pos rfl, if_neg hk, List.mem_cons]
        constructor
        · intro hfalse; exact absurd hfalse (by simp)
        · intro hmem
          rcases hmem with heq | hmem
          · exact absurd (congrArg Prod.snd heq).symm hk
          · exact absurd (List.mem_map_of_mem Prod.fst hmem) hnotin
    · simp only [if_neg hd, List.mem_cons]
      rw [ih hnd]
      constructor
      · intro hm; right; exact hm
      · intro hm
        rcases hm with heq | hm
        · exact absurd (congrArg Prod.fst heq) hd
        · exact hm

theorem takeWhile_of_append (p : Char → Bool) (ds rest : List Char) (r0 : Char)
    (hds : ∀ c ∈ ds, p c) (hr : p r0 = false) :
    (ds ++ r0 :: rest).takeWhile p = ds ∧ (ds ++ r0 :: rest).dropWhile p = r0 :: rest := by
  induction ds with
  | nil => simp [List.takeWhile, List.dropWhile, hr]
  | cons a as ih =>
    have ha : p a = true := hds a (by simp)
    have iih := ih (fun c hc => hds c (by simp [hc]))
    simp only [List.cons_append, List.takeWhile, List.dropWhile, ha]
    simp [iih.1, iih.2]

theorem digit_toNat_bounds (c : Char) (h : c.isDigit = true) :
    48 ≤ c.toNat ∧ c.toNat ≤ 57 := by
  unfold Char.isDigit at h
  simp only [Bool.and_eq_true, decide_eq_true_eq] at h
  exact h

theorem digitsToNat_le_99 (ds : List Char) (h1 : ds.length ≤ 2)
    (h2 : ∀ c ∈ ds, c.isDigit) : digitsToNat ds ≤ 99 := by
  match ds, h1 with
  | [], _ => simp [digitsToNat]
  | [a], _ =>
    have := digit_toNat_bounds a (h2 a (by simp))
    simp only [digitsToNat, List.foldl]
    omega
  | [a, b], _ =>
    have ha := digit_toNat_bounds a (h2 a (by simp))
    have hb := digit_toNat_bounds b (h2 b (by simp))
    simp only [digitsToNat, List.foldl]
    omega

theorem parse_isSome_of_grammar (s : String)
    (hg : matchesBarSizeGrammar unit_alternatives s) :
    (_parse_barSizeSetting s).isSome := by
  obtain ⟨ds, us, hcs, hne, hlen, hdig, hmem⟩ := hg
  have hsp : (' ' : Char).isDigit = false := by decide
  have htw := takeWhile_of_append Char.isDigit ds us ' ' (fun c hc => hdig c hc) hsp
  have hlen1 : 1 ≤ ds.length := List.length_pos.mpr hne
  simp only [_parse_barSizeSetting, hcs, htw.1, htw.2]
  rw [if_pos ⟨hlen1, hlen⟩, if_pos hmem]
  rfl

theorem grammar_of_parse_isSome (s : String)
    (h : (_parse_barSizeSetting s).isSome) :
    matchesBarSizeGrammar unit_alternatives s := by
  simp only [_parse_barSizeSetting] at h
  by_cases hlen : 1 ≤ ((stripChars s.toList).takeWhile Char.isDigit).length ∧
      ((stripChars s.toList).takeWhile Char.isDigit).length ≤ 2
  · rw [if_pos hlen] at h
    split at h
    · rename_i us heq
      by_cases hmem : String.mk us ∈ unit_alternatives
      · refine ⟨(stripChars s.toList).takeWhile Char.isDigit, us, ?_, ?_, hlen.2,
          fun c hc => List.mem_takeWhile_imp hc, hmem⟩
        · conv_lhs => rw [← List.takeWhile_append_dropWhile Char.isDigit (stripChars s.toList)]
          rw [heq]
        · intro hnil
          rw [hnil] at hlen
          simp at hlen
      · rw [if_neg hmem] at h
        simp at h
    · simp at h
  · rw [if_neg hlen] at h
    simp at h

theorem parse_value_le_99 (s : String) (v : Nat) (u : String)
    (h : _parse_barSizeSetting s = some (v, u)) : v ≤ 99 := by
  simp only [_parse_barSizeSetting] at h
  by_cases hlen : 1 ≤ ((stripChars s.toList).takeWhile Char.isDigit).length ∧
      ((stripChars s.toList).takeWhile Char.isDigit).length ≤ 2
  · rw [if_pos hlen] at h
    split at h
    · rename_i us heq
      by_cases hmem : String.mk us ∈ unit_alternatives
      · rw [if_pos hmem] at h
        have hv : v = digitsToNat ((stripChars s.toList).takeWhile Char.isDigit) := by
          have := (Option.some.injEq _ _).mp h
          exact (congrArg Prod.fst this).symm
        rw [hv]
        exact digitsToNat_le_99 _ hlen.2 (fun c hc => List.mem_takeWhile_imp hc)
      · rw [if_neg hmem] at h
        simp at h
    · simp at h
  · rw [if_neg hlen] at h
    simp at h

theorem gpd_spec (hol : HolidayList) :
    ∀ (fuel : Nat) (d : Date), ValidDate d →
    (∃ j, 1 ≤ j ∧ j ≤ fuel ∧ _is_date_a_trading_day (prevDay^[j] d) hol = true) →
    ∃ r, _get_previous_trading_day fuel d hol = some r ∧
      _is_date_a_trading_day r hol = true ∧ toOrdinal r < toOrdinal d := by
  intro fuel
  induction fuel with
  | zero =>
    rintro d _ ⟨j, hj1, hj2, _⟩
    omega
  | succ f ih =>
    rintro d hv ⟨j, hj1, hj2, hj3⟩
    have hprev := toOrdinal_prevDay d hv
    unfold _get_previous_trading_day
    by_cases htr : _is_date_a_trading_day (prevDay d) hol = true
    · refine ⟨prevDay d, ?_, htr, by omega⟩
      simp [htr]
    · rw [if_neg htr]
      have hj1' : j ≠ 1 := by
        intro h1
        rw [h1, Function.iterate_one] at hj3
        exact htr hj3
      have hiter : prevDay^[j] d = prevDay^[j - 1] (prevDay d) := by
        conv_lhs => rw [show j = (j - 1) + 1 by omega]
        rw [Function.iterate_succ_apply]
      obtain ⟨r, hr1, hr2, hr3⟩ := ih (prevDay d) (validDate_prevDay d hv)
        ⟨j - 1, by omega, by omega, by rw [← hiter]; exact hj3⟩
      exact ⟨r, hr1, hr2, by omega⟩

theorem sma_post_state (length : Nat) (bars : List Bar) (s e : Int) :
    (calculate_historical_sma length bars s e).1 = bars.insertionSort barGE := by
  simp only [calculate_historical_sma]
  split <;> rfl

theorem sma_error_of_insufficient (length : Nat) (bars : List Bar) (s e : Int)
    (h : bars.length < length) :
    calculate_historical_sma length bars s e =
      (bars.insertionSort barGE,
        Except.error ⟨length, s, e, bars.insertionSort barGE⟩) := by
  have hlen : (bars.insertionSort barGE).length = bars.length :=
    (List.perm_insertionSort barGE bars).length_eq
  have htake : (bars.insertionSort barGE).take length = bars.insertionSort barGE :=
    List.take_of_length_le (by omega)
  simp only [calculate_historical_sma, htake]
  rw [if_pos (by omega)]

theorem sma_ok_of_enough (length : Nat) (bars : List Bar) (s e : Int)
    (h : length ≤ bars.length) :
    calculate_historical_sma length bars s e =
      (bars.insertionSort barGE,
        Except.ok ((((bars.insertionSort barGE).take length).map Prod.snd).sum / (length : ℚ))) := by
  have hlen : (bars.insertionSort barGE).length = bars.length :=
    (List.perm_insertionSort barGE bars).length_eq
  have htake : ((bars.insertionSort barGE).take length).length = length := by
    rw [List.length_take]
    omega
  simp only [calculate_historical_sma, htake]
  rw [if_neg (lt_irrefl length)]

/-! ## Claim theorems -/
/-- C1 (counterexample): with the 2016 holiday table loaded and
end = 2016-11-28 16:00 exchange-local, resolving a window with count = 1 and
barSize "1 day" does not return a start equal to midnight of 2016-11-25:
`calculate_durationStr` subtracts a fixed 2 seconds from the walked-to start
before returning it. -/
theorem C1_start_not_midnight_counterexample :
    ¬ ((calculate_durationStr 10 1 "1 day" ⟨⟨2016, 11, 28⟩, 57600⟩ trading_holidays_2016
          exchange_opening_time exchange_normal_close_time exchange_early_close_time).map
        Prod.fst = some ⟨⟨2016, 11, 25⟩, 0⟩) := by
  decide

/-- C1 (amended): the backward trading-day walk itself lands on midnight of
2016-11-25 — the weekend 11/26–11/27 contributes no trading days and the
early-close day 11/25 counts as a trading day — and the start returned by
window resolution is that midnight minus the fixed 2-second adjustment,
i.e. 2016-11-24 23:59:58, paired with duration string "4 D". -/
theorem C1_amended_start_two_seconds_before_midnight :
    _x_trading_days_ago_starts_on_this_date 10 1 ⟨⟨2016, 11, 28⟩, 57600⟩ trading_holidays_2016
      = some ⟨⟨2016, 11, 25⟩, 0⟩ ∧
    calculate_durationStr 10 1 "1 day" ⟨⟨2016, 11, 28⟩, 57600⟩ trading_holidays_2016
        exchange_opening_time exchange_normal_close_time exchange_early_close_time
      = some (⟨⟨2016, 11, 24⟩, 86398⟩, "4 D") := by
  constructor
  · decide
  · decide

/-- C2 (counterexample): a naive end datetime is not interpreted as
machine-local time.  With machine-local offset 0, exchange offset -18000
(UTC-5) and naive wall-clock 0, the normalized exchange instant differs from
the machine-local interpretation converted to the exchange zone. -/
theorem C2_naive_not_machine_local_counterexample :
    ¬ ((format_endDateTime 0 (-18000) 1 (EndDateTimeArg.naive 0)).toOption.map Prod.fst
        = some (spec_naive_end_interpretation 0 (-18000) 0)) := by
  decide

/-- C2 (amended): a naive (timezone-free) end datetime that is not in the
future is interpreted as exchange-local wall-clock time — it is localized
directly to the exchange timezone — and only the request string is rendered
in machine-local time (wall - exchangeOffset + localOffset). -/
theorem C2_amended_naive_interpreted_as_exchange_local
    (localOffset exchangeOffset nowLocalWall wall : Int) (h : ¬ nowLocalWall < wall) :
    format_endDateTime localOffset exchangeOffset nowLocalWall (EndDateTimeArg.naive wall)
      = Except.ok (tzLocalize localOffset exchangeOffset TzTag.exchangeTz wall,
          wall - exchangeOffset + localOffset) := by
  simp only [format_endDateTime, if_neg h]
  rfl

theorem C2_amended_naive_interpreted_as_exchange_local_witness :
    ¬ (1 : Int) < 0 ∧
    format_endDateTime 0 (-18000) 1 (EndDateTimeArg.naive 0)
      = Except.ok (tzLocalize 0 (-18000) TzTag.exchangeTz 0, 0 - (-18000) + 0) :=
  ⟨by decide, C2_amended_naive_interpreted_as_exchange_local 0 (-18000) 1 0 (by decide)⟩

/-- C3 (counterexample): the claimed grammar accepts "2 hours" with a
positive magnitude, but the source parser rejects it — the source regex has
no plural `hours` alternative. -/
theorem C3_two_hours_rejected_counterexample :
    spec_claimed_barSize_ok "2 hours" ∧ _parse_barSizeSetting "2 hours" = none :=
  ⟨⟨⟨['2'], "hours".toList, by decide, by decide, by decide, by decide, by decide⟩,
    by decide⟩, by decide⟩

/-- C3 (amended): the parser succeeds exactly when the whitespace-trimmed
input matches `^\d{1,2} (sec|secs|min|mins|hour|day)$` — plural "hours" is
not accepted — and the resulting magnitude is an integer in 0–99: there is
no positivity check, so "0 secs" parses with magnitude 0; every string of
any other shape fails with the parse exception. -/
theorem C3_amended_parser_grammar (s : String) :
    ((_parse_barSizeSetting s).isSome ↔ matchesBarSizeGrammar unit_alternatives s) ∧
    ∀ v u, _parse_barSizeSetting s = some (v, u) → v ≤ 99 :=
  ⟨⟨grammar_of_parse_isSome s, parse_isSome_of_grammar s⟩,
    fun v u h => parse_value_le_99 s v u h⟩

theorem C3_amended_parser_grammar_witness :
    (((_parse_barSizeSetting "5 mins").isSome ↔
        matchesBarSizeGrammar unit_alternatives "5 mins") ∧
      ∀ v u, _parse_barSizeSetting "5 mins" = some (v, u) → v ≤ 99) ∧
    _parse_barSizeSetting "5 mins" = some (5, "mins") :=
  ⟨C3_amended_parser_grammar "5 mins", by decide⟩

/-- C4: for count ≥ 1, the aggregator sorts the bars descending by timestamp
and takes the first count: when fewer than count bars were supplied it fails
with the insufficient-data error carrying the full list of available bars (a
permutation of everything supplied), and otherwise it returns the arithmetic
mean of the selected value over exactly count bars. -/
theorem C4_aggregate_sort_take_mean (length : Nat) (bars : List Bar) (s e : Int)
    (_hlen : 1 ≤ length) :
    (bars.length < length →
      calculate_historical_sma length bars s e =
        (bars.insertionSort barGE, Except.error ⟨length, s, e, bars.insertionSort barGE⟩) ∧
      (bars.insertionSort barGE).Perm bars) ∧
    (length ≤ bars.length →
      ((bars.insertionSort barGE).take length).length = length ∧
      calculate_historical_sma length bars s e =
        (bars.insertionSort barGE,
          Except.ok ((((bars.insertionSort barGE).take length).map Prod.snd).sum /
            (length : ℚ)))) := by
  constructor
  · intro hlt
    exact ⟨sma_error_of_insufficient length bars s e hlt, List.perm_insertionSort barGE bars⟩
  · intro hge
    have hlen2 : (bars.insertionSort barGE).length = bars.length :=
      (List.perm_insertionSort barGE bars).length_eq
    refine ⟨by rw [List.length_take]; omega, sma_ok_of_enough length bars s e hge⟩

theorem C4_aggregate_sort_take_mean_witness :
    1 ≤ 2 ∧
    ((sampleBars.length < 2 →
        calculate_historical_sma 2 sampleBars 0 1 =
          (sampleBars.insertionSort barGE,
            Except.error ⟨2, 0, 1, sampleBars.insertionSort barGE⟩) ∧
        (sampleBars.insertionSort barGE).Perm sampleBars) ∧
      (2 ≤ sampleBars.length →
        ((sampleBars.insertionSort barGE).take 2).length = 2 ∧
        calculate_historical_sma 2 sampleBars 0 1 =
          (sampleBars.insertionSort barGE,
            Except.ok ((((sampleBars.insertionSort barGE).take 2).map Prod.snd).sum /
              ((2 : Nat) : ℚ))))) :=
  ⟨by norm_num, C4_aggregate_sort_take_mean 2 sampleBars 0 1 (by norm_num)⟩

/-- C5: for every start and end instant, the duration descriptor computed by
the source's chain is exactly the spec's first-match-wins table applied to
the broken-down absolute calendar difference of start and end: years > 0
gives (years+1) Y; months = 11 gives 1 Y; months > 0 gives (months+1) M;
days = 27 gives 1 M; days ≥ 6 gives (days/7 + 1) W; days > 0 gives
(days+1) D; hours = 23 gives 1 D; otherwise the remaining seconds. -/
theorem C5_duration_table_matches_spec (dt1 dt2 : DateTime) :
    durationStr_of_span dt1 dt2 = renderDuration (spec_durationTable (rdAbs dt1 dt2)) := by
  rw [durationStr_eq_render]
  rfl

theorem C6_duration_descriptor_covers_span_witness :
    ValidDateTime ⟨⟨2016, 11, 24⟩, 86398⟩ ∧ ValidDateTime ⟨⟨2016, 11, 28⟩, 57600⟩ ∧
    dtTotalSeconds ⟨⟨2016, 11, 24⟩, 86398⟩ ≤ dtTotalSeconds ⟨⟨2016, 11, 28⟩, 57600⟩ ∧
    backShiftSeconds ⟨⟨2016, 11, 28⟩, 57600⟩
        (durationDescriptor_of_span ⟨⟨2016, 11, 24⟩, 86398⟩ ⟨⟨2016, 11, 28⟩, 57600⟩)
      ≤ dtTotalSeconds ⟨⟨2016, 11, 24⟩, 86398⟩ :=
  ⟨by decide, by decide, by decide,
    C6_duration_descriptor_covers_span ⟨⟨2016, 11, 24⟩, 86398⟩ ⟨⟨2016, 11, 28⟩, 57600⟩
      (by decide) (by decide) (by decide)⟩

/-- C7: for every date and every date-unique holiday table, the trading-day
predicate is false exactly on Saturdays and Sundays (regardless of the
table) and on full-day holidays, and true in every other case, including on
early-close holidays. -/
theorem C7_trading_day_characterization (d : Date) (hol : HolidayList)
    (hnodup : (hol.map Prod.fst).Nodup) :
    _is_date_a_trading_day d hol = false ↔
      (weekday d = 5 ∨ weekday d = 6) ∨ (d, "full day") ∈ hol := by
  unfold _is_date_a_trading_day
  by_cases hw : weekday d = 5 ∨ weekday d = 6
  · simp [hw]
  · rw [if_neg hw, holiday_scan_eq_false_iff d hol hnodup]
    simp [hw]

theorem C7_trading_day_characterization_witness :
    ((trading_holidays_2016.map Prod.fst).Nodup) ∧
    (_is_date_a_trading_day ⟨2016, 12, 26⟩ trading_holidays_2016 = false ↔
      (weekday ⟨2016, 12, 26⟩ = 5 ∨ weekday ⟨2016, 12, 26⟩ = 6) ∨
        (⟨2016, 12, 26⟩, "full day") ∈ trading_holidays_2016) :=
  ⟨by decide, C7_trading_day_characterization ⟨2016, 12, 26⟩ trading_holidays_2016 (by decide)⟩

/-- C8 (counterexample): the aggregator does not leave the caller's sequence
unchanged: `historical_values.sort(...)` sorts the caller's list in place,
so a list supplied in ascending-timestamp order comes back reordered. -/
theorem C8_caller_list_mutated_counterexample :
    (calculate_historical_sma 1 [((1 : Int), (10 : ℚ)), (2, 20)] 0 1).1
      ≠ [((1 : Int), (10 : ℚ)), (2, 20)] := by
  decide

/-- C8 (amended): the aggregator's return value depends only on its inputs,
but it mutates the caller's sequence in place: after the call the caller's
list holds exactly the same bars rearranged into descending-timestamp
order. -/
theorem C8_amended_in_place_sort (length : Nat) (bars : List Bar) (s e : Int) :
    (calculate_historical_sma length bars s e).1.Perm bars ∧
    List.Sorted barGE (calculate_historical_sma length bars s e).1 := by
  rw [sma_post_state]
  exact ⟨List.perm_insertionSort barGE bars, List.sorted_insertionSort barGE bars⟩

/-- C9: whenever some day in the bounded lookback window is a trading day,
the previous-trading-day search terminates (returns a result within that
bound), its result is strictly earlier than the argument date, and the
result is a trading day. -/
theorem C9_previous_trading_day_correct (fuel : Nat) (d : Date) (hol : HolidayList)
    (hv : ValidDate d)
    (hex : ∃ j, 1 ≤ j ∧ j ≤ fuel ∧ _is_date_a_trading_day (prevDay^[j] d) hol = true) :
    ∃ r, _get_previous_trading_day fuel d hol = some r ∧
      _is_date_a_trading_day r hol = true ∧ toOrdinal r < toOrdinal d :=
  gpd_spec hol fuel d hv hex

theorem C9_previous_trading_day_correct_witness :
    ValidDate ⟨2016, 11, 28⟩ ∧
    (∃ j, 1 ≤ j ∧ j ≤ 3 ∧
      _is_date_a_trading_day (prevDay^[j] (⟨2016, 11, 28⟩ : Date)) trading_holidays_2016
        = true) ∧
    ∃ r, _get_previous_trading_day 3 ⟨2016, 11, 28⟩ trading_holidays_2016 = some r ∧
      _is_date_a_trading_day r trading_holidays_2016 = true ∧
      toOrdinal r < toOrdinal ⟨2016, 11, 28⟩ :=
  ⟨by decide, ⟨3, by decide, by decide, by decide⟩,
    C9_previous_trading_day_correct 3 ⟨2016, 11, 28⟩ trading_holidays_2016 (by decide)
      ⟨3, by decide, by decide, by decide⟩⟩

/-- C10: when at least count bars are supplied, the aggregator's result is
independent of the start and end instants passed to it — they are only
carried into the error value — and the selected bars are always the first
count of the descending-sorted list, never filtered against the window
bounds. -/
theorem C10_aggregate_independent_of_window (length : Nat) (bars : List Bar)
    (s1 e1 s2 e2 : Int) (h : length ≤ bars.length) :
    (calculate_historical_sma length bars s1 e1).2
      = (calculate_historical_sma length bars s2 e2).2 ∧
    (calculate_historical_sma length bars s1 e1).2
      = Except.ok ((((bars.insertionSort barGE).take length).map Prod.snd).sum /
          (length : ℚ)) := by
  have h1 := sma_ok_of_enough length bars s1 e1 h
  have h2 := sma_ok_of_enough length bars s2 e2 h
  constructor
  · rw [h1, h2]
  · rw [h1]

theorem C10_aggregate_independent_of_window_witness :
    2 ≤ sampleBars.length ∧
    ((calculate_historical_sma 2 sampleBars 0 1).2
        = (calculate_historical_sma 2 sampleBars 5 7).2 ∧
      (calculate_historical_sma 2 sampleBars 0 1).2
        = Except.ok ((((sampleBars.insertionSort barGE).take 2).map Prod.snd).sum /
            ((2 : Nat) : ℚ))) :=
  ⟨by decide, C10_aggregate_independent_of_window 2 sampleBars 0 1 5 7 (by decide)⟩
